import Mathlib

/-!
Verification development for the WOS coredump analyzer
(`tools/parse_wos_coredump.py`).

The Python source is shallowly embedded: byte buffers become `List Nat`,
machine integers become `Nat` (or `Int` where the source can produce
negative values), and fallible operations return `Option` or an explicit
result type.  `struct.unpack_from` checks that the requested read fits in
the buffer and raises `struct.error` otherwise; embedded parsers model a
raised-and-uncaught `struct.error` explicitly.  Little-endian multi-byte
reads are assembled from the byte list.
-/

/-- Byte at index `i` of a buffer (in-bounds reads are guarded by callers,
matching `struct.unpack_from` which validates the length before reading). -/
def byteAt (data : List Nat) (i : Nat) : Nat := data.getD i 0

/-- Little-endian 16-bit read (`struct` format "H"). -/
def u16At (data : List Nat) (i : Nat) : Nat :=
  byteAt data i + 256 * byteAt data (i + 1)

/-- Little-endian 32-bit read (`struct` format "I"). -/
def u32At (data : List Nat) (i : Nat) : Nat :=
  byteAt data i + 256 * byteAt data (i + 1) + 65536 * byteAt data (i + 2) +
    16777216 * byteAt data (i + 3)

/-- Little-endian 64-bit unsigned read (`struct` format "Q"). -/
def u64At (data : List Nat) (i : Nat) : Nat :=
  u32At data i + 4294967296 * u32At data (i + 4)

/-- Little-endian 64-bit signed read (`struct` format "q"). -/
def i64At (data : List Nat) (i : Nat) : Int :=
  let u := u64At data i
  if u < 9223372036854775808 then (u : Int) else (u : Int) - 18446744073709551616

/-- Python slice `l[a:b]` for nonnegative bounds: clamps, never fails. -/
def pySlice (l : List Nat) (a b : Nat) : List Nat := (l.take b).drop a

/-- `n` zero bytes (used to build concrete test buffers). -/
def zeros (n : Nat) : List Nat := List.replicate n 0

/-- Python `bytes.decode("utf-8", errors="replace")`, modelled byte-wise:
ASCII bytes decode to themselves and every other byte to U+FFFD.  This is
faithful on ASCII input and preserves emptiness of the input exactly, which
is all this development relies on (multi-byte UTF-8 sequences would decode
to fewer replacement characters in Python, but no theorem below depends on
the decoded spelling of non-ASCII names). -/
def pyDecodeUtf8Replace (bs : List Nat) : String :=
  String.mk (bs.map (fun b => if b < 128 then Char.ofNat b else Char.ofNat 0xFFFD))

/-- Lowercase hexadecimal rendering of a nonnegative integer, as Python's
format specifier `x` produces (`f"{value:x}"`). -/
def natToHex (n : Nat) : String := String.mk (Nat.toDigits 16 n)

/-- Python `bytes.find(b"\x00", start)`: index of the first zero byte at
position `start` or later, `none` when there is none (Python returns -1). -/
def findZeroFrom (s : List Nat) (start : Nat) : Option Nat :=
  match (s.drop start).findIdx? (fun b => b == 0) with
  | some j => some (start + j)
  | none => none

/-- A symbol-table entry `(addr, name, size)` as stored in
`SymbolTable._syms`. -/
abbrev SymEntry := Nat × String × Nat

/-- A section-map entry `(vaddr, size, name)` as stored in
`SectionMap._sections`. -/
abbrev SecEntry := Nat × Nat × String

/-- `_demangle_batch`: the external `llvm-cxxfilt` collaborator is modelled
as a function from the submitted names to `none` (process unavailable,
timed out, or exited nonzero) or `some` output lines.  As in the source, an
empty batch is returned unchanged, and output whose line count differs from
the input count is discarded in favour of the original names. -/
def _demangle_batch (collab : List String → Option (List String))
    (names : List String) : List String :=
  if names = [] then names
  else
    match collab names with
    | some r => if r.length = names.length then r else names
    | none => names

/-- Python string `<`: lexicographic comparison by code points. -/
def pyStrLT (a b : String) : Bool := decide (a < b)

/-- Python tuple `<=` on `(addr, name, size)` triples: lexicographic, with
strings compared by code points. -/
def symLE (a b : SymEntry) : Bool :=
  decide (a.1 < b.1) ||
    (decide (a.1 = b.1) &&
      (pyStrLT a.2.1 b.2.1 ||
        (decide (a.2.1 = b.2.1) && decide (a.2.2 ≤ b.2.2))))

/-- Insert an element into an already sorted list (helper for `pySort`). -/
def insertSorted (le : α → α → Bool) (e : α) : List α → List α
  | [] => [e]
  | x :: xs => if le e x then e :: x :: xs else x :: insertSorted le e xs

/-- Python `list.sort()`: a stable ascending sort.  Insertion sort is used
as the executable model; the theorems below rely only on it producing a
permutation of its input. -/
def pySort (le : α → α → Bool) (l : List α) : List α :=
  l.foldr (insertSorted le) []

/-- `SymbolTable.finish`: demangle all names as one batch (order
preserving), reattach them to the `(addr, size)` data positionally, and
sort the table. -/
def SymbolTable.finish (collab : List String → Option (List String))
    (syms : List SymEntry) : List SymEntry :=
  let demangled := _demangle_batch collab (syms.map (fun e => e.2.1))
  pySort symLE ((syms.zip demangled).map (fun p => (p.1.1, p.2, p.1.2.2)))

/-- `bisect.bisect_right(self._syms, (addr,))`.  Python compares the probe
1-tuple `(addr,)` with the stored 3-tuples elementwise, and on an equal
first component the shorter tuple is the smaller one; hence an entry is
`<= (addr,)` exactly when its address is strictly below `addr`.  On a
sorted list `bisect_right` returns the number of elements not exceeding
the probe, which is therefore the number of entries with address `< addr`. -/
def bisect_right_syms (syms : List SymEntry) (addr : Nat) : Nat :=
  (syms.filter (fun e => decide (e.1 < addr))).length

/-- `SymbolTable.lookup`: nearest-below search with the size-or-bound rule.
The flattened conditional is equivalent to the source's nested one: with a
known size (`> 0`) an offset at or past the size is rejected only when it
also exceeds the `0x1000` tolerance; with unknown size (`= 0`) offsets
above `0x10000` are rejected; otherwise a zero offset renders the bare
name and a positive one renders `name+0xOFFSET`. -/
def SymbolTable.lookup (syms : List SymEntry) (addr : Nat) : Option String :=
  if syms.isEmpty then none
  else
    let idx : Int := (bisect_right_syms syms addr : Int) - 1
    if idx < 0 then none
    else
      let e := syms.getD idx.toNat (0, "", 0)
      let offset : Int := (addr : Int) - (e.1 : Int)
      if offset < 0 then none
      else if 0 < e.2.2 ∧ (e.2.2 : Int) ≤ offset ∧ (4096 : Int) < offset then none
      else if e.2.2 = 0 ∧ (65536 : Int) < offset then none
      else if offset = 0 then some e.2.1
      else some (e.2.1 ++ "+0x" ++ natToHex offset.toNat)

/-- `bisect.bisect_right(self._sections, (addr,))`: same probe-tuple
comparison as for symbols, so it counts the sections with `vaddr < addr`. -/
def bisect_right_secs (secs : List SecEntry) (addr : Nat) : Nat :=
  (secs.filter (fun e => decide (e.1 < addr))).length

/-- `SectionMap.lookup`: nearest-below search, strictly bounded by the
section size. -/
def SectionMap.lookup (secs : List SecEntry) (addr : Nat) : Option String :=
  if secs.isEmpty then none
  else
    let idx : Int := (bisect_right_secs secs addr : Int) - 1
    if idx < 0 then none
    else
      let e := secs.getD idx.toNat (0, 0, "")
      let offset : Int := (addr : Int) - (e.1 : Int)
      if offset < 0 ∨ (e.2.1 : Int) ≤ offset then none
      else if offset = 0 then some e.2.2
      else some (e.2.2 ++ "+0x" ++ natToHex offset.toNat)

/-- `resolve_addr`: symbol tables first (in registration order), then
section maps. -/
def resolve_addr (addr : Nat) (tables : List (List SymEntry))
    (section_maps : List (List SecEntry)) : Option String :=
  match tables.findSome? (fun t => SymbolTable.lookup t addr) with
  | some r => some r
  | none => section_maps.findSome? (fun m => SectionMap.lookup m addr)

/-- `ELF_MAGIC = b"\x7fELF"`. -/
def ELF_MAGIC : List Nat := [0x7f, 0x45, 0x4c, 0x46]

def SHT_SYMTAB : Nat := 2
def SHT_DYNSYM : Nat := 11
def STT_FUNC : Nat := 2
def STT_NOTYPE : Nat := 0

/-- One decoded ELF64 section header (`struct` format "<IIQQQQIIqq"; the
last two fields are signed). -/
structure Shdr where
  nameOff : Nat
  typ : Nat
  flags : Nat
  addr : Nat
  offset : Nat
  size : Nat
  link : Nat
  info : Nat
  addralign : Int
  entsize : Int
deriving DecidableEq, Repr, Inhabited

/-- Read the `i`-th section header; `none` models the `off + 64 > len(elf)`
bound check of the source. -/
def readShdr (elf : List Nat) (e_shoff e_shentsize i : Nat) : Option Shdr :=
  let off := e_shoff + i * e_shentsize
  if elf.length < off + 64 then none
  else some {
    nameOff := u32At elf off, typ := u32At elf (off + 4),
    flags := u64At elf (off + 8), addr := u64At elf (off + 16),
    offset := u64At elf (off + 24), size := u64At elf (off + 32),
    link := u32At elf (off + 40), info := u32At elf (off + 44),
    addralign := i64At elf (off + 48), entsize := i64At elf (off + 56) }

/-- The section-header loop of `_parse_elf_symtab`: any out-of-bounds
header makes the whole function return "no table". -/
def readShdrs (elf : List Nat) (e_shoff e_shentsize e_shnum : Nat) :
    Option (List Shdr) :=
  (List.range e_shnum).mapM (readShdr elf e_shoff e_shentsize)

/-- Find the symbol-table section header: `.symtab` (type 2) preferred,
then `.dynsym` (type 11). -/
def findSymtabShdr (shdrs : List Shdr) : Option Shdr :=
  match shdrs.find? (fun s => s.typ == SHT_SYMTAB) with
  | some s => some s
  | none => shdrs.find? (fun s => s.typ == SHT_DYNSYM)

/-- Null-terminated name lookup in a string table
(`strtab.find(b"\x00", st_name)` then slice and decode). -/
def readStrtabName (strtab : List Nat) (st_name : Nat) : String :=
  let nameEnd :=
    match findZeroFrom strtab st_name with
    | some e => e
    | none => strtab.length
  pyDecodeUtf8Replace (pySlice strtab st_name nameEnd)

/-- The symbol-entry loop of `_parse_elf_symtab`.  `none` models an
uncaught `struct.error`: the source calls
`struct.unpack_from("<IBBHQQ", elf, sym_off)` without checking that
`sym_off + 24 <= len(elf)`, so a symtab section header whose declared
region extends past the buffer raises.  The loop advances `sym_off` by
`entsize ≥ 1` per iteration while `sym_off + entsize ≤ sym_end`, so it
runs at most `sym_end` times; the structural `fuel` argument is
initialized to `sym_end + 1` by the caller and therefore never reaches 0
on the recursive path. -/
def symLoop (elf strtab : List Nat) (entsize : Nat) :
    Nat → Nat → Nat → List SymEntry → Option (List SymEntry)
  | 0, _, _, acc => some acc
  | fuel + 1, sym_off, sym_end, acc =>
    if sym_off + entsize ≤ sym_end then
      if elf.length < sym_off + 24 then none
      else
        let st_name := u32At elf sym_off
        let st_info := byteAt elf (sym_off + 4)
        let st_value := u64At elf (sym_off + 8)
        let st_size := u64At elf (sym_off + 16)
        let stt := st_info &&& 15
        if stt ≠ STT_FUNC ∧ stt ≠ STT_NOTYPE then
          symLoop elf strtab entsize fuel (sym_off + entsize) sym_end acc
        else if st_value = 0 then
          symLoop elf strtab entsize fuel (sym_off + entsize) sym_end acc
        else
          let name := readStrtabName strtab st_name
          if name = "" then
            symLoop elf strtab entsize fuel (sym_off + entsize) sym_end acc
          else
            symLoop elf strtab entsize fuel (sym_off + entsize) sym_end
              (acc ++ [(st_value, name, st_size)])
    else some acc

/-- Result of running a Python function that can raise or loop:
`ok` is a normal return, `exn` an uncaught exception, `hang`
non-termination. -/
inductive PRes (α : Type) where
  | ok : α → PRes α
  | exn : PRes α
  | hang : PRes α
deriving DecidableEq

/-- `_parse_elf_symtab`, parameterized by the demangler collaborator.
`.ok none` is the source's `return None` ("no table"); `.exn` an escaped
`struct.error`; `.hang` the infinite loop the source runs into when the
declared `sh_entsize` is negative (the loop condition
`sym_off + entsize <= sym_end` then never becomes false). -/
def _parse_elf_symtab (collab : List String → Option (List String))
    (elf : List Nat) : PRes (Option (List SymEntry)) :=
  if elf.length < 64 then .ok none
  else if elf.take 4 ≠ ELF_MAGIC then .ok none
  else if byteAt elf 4 ≠ 2 then .ok none
  else
    let e_shoff := u64At elf 40
    let e_shentsize := u16At elf 58
    let e_shnum := u16At elf 60
    if e_shoff = 0 ∨ e_shnum = 0 then .ok none
    else
      match readShdrs elf e_shoff e_shentsize e_shnum with
      | none => .ok none
      | some shdrs =>
        match findSymtabShdr shdrs with
        | none => .ok none
        | some symtab_shdr =>
          if shdrs.length ≤ symtab_shdr.link then .ok none
          else
            let strtab_shdr := shdrs.getD symtab_shdr.link default
            let strtab :=
              pySlice elf strtab_shdr.offset (strtab_shdr.offset + strtab_shdr.size)
            let entsize : Int :=
              if symtab_shdr.entsize = 0 then 24 else symtab_shdr.entsize
            let sym_end := symtab_shdr.offset + symtab_shdr.size
            if entsize ≤ 0 then .hang
            else
              match symLoop elf strtab entsize.toNat (sym_end + 1)
                  symtab_shdr.offset sym_end [] with
              | none => .exn
              | some entries =>
                let table := SymbolTable.finish collab entries
                if 0 < table.length then .ok (some table) else .ok none

/-- `InterruptFrame`: 7 unsigned 64-bit fields. -/
structure InterruptFrame where
  intNum : Nat
  errCode : Nat
  rip : Nat
  cs : Nat
  rflags : Nat
  rsp : Nat
  ss : Nat
deriving DecidableEq, Repr

/-- `GPRegs`: 15 unsigned 64-bit general-purpose registers. -/
structure GPRegs where
  r15 : Nat
  r14 : Nat
  r13 : Nat
  r12 : Nat
  r11 : Nat
  r10 : Nat
  r9 : Nat
  r8 : Nat
  rbp : Nat
  rdi : Nat
  rsi : Nat
  rdx : Nat
  rcx : Nat
  rbx : Nat
  rax : Nat
deriving DecidableEq, Repr

/-- `CoreDumpSegment`: one captured memory region. -/
structure CoreDumpSegment where
  vaddr : Nat
  size : Nat
  fileOffset : Nat
  typ : Nat
  present : Nat
deriving DecidableEq, Repr

/-- `CoreDump`: the parsed WOS core dump (`raw` holds the full file). -/
structure CoreDump where
  magic : Nat
  version : Nat
  headerSize : Nat
  timestamp : Nat
  pid : Nat
  cpu : Nat
  intNum : Nat
  errCode : Nat
  cr2 : Nat
  cr3 : Nat
  trapFrame : InterruptFrame
  trapRegs : GPRegs
  savedFrame : InterruptFrame
  savedRegs : GPRegs
  taskEntry : Nat
  taskPagemap : Nat
  elfHeaderAddr : Nat
  programHeaderAddr : Nat
  segmentCount : Nat
  segmentTableOffset : Nat
  elfSize : Nat
  elfOffset : Nat
  segments : List CoreDumpSegment
  raw : List Nat
deriving DecidableEq, Repr

def COREDUMP_MAGIC : Nat := 0x504D55444F43534F

/-- `SEGMENT_SIZE = 8 + 8 + 8 + 4 + 4`, which evaluates to 32 (the source
comment claims 28, but both the constant and `struct.calcsize("<QQQII")`
are 32, so the stride actually used is 32). -/
def SEGMENT_SIZE : Nat := 8 + 8 + 8 + 4 + 4

def MAX_SEGMENTS : Nat := 5

/-- `parse_interrupt_frame`: `struct.unpack_from("<7Q", buf, off)`. -/
def parseInterruptFrame (data : List Nat) (off : Nat) : InterruptFrame :=
  { intNum := u64At data off, errCode := u64At data (off + 8),
    rip := u64At data (off + 16), cs := u64At data (off + 24),
    rflags := u64At data (off + 32), rsp := u64At data (off + 40),
    ss := u64At data (off + 48) }

/-- `parse_gpregs`: `struct.unpack_from("<15Q", buf, off)`. -/
def parseGPRegs (data : List Nat) (off : Nat) : GPRegs :=
  { r15 := u64At data off, r14 := u64At data (off + 8),
    r13 := u64At data (off + 16), r12 := u64At data (off + 24),
    r11 := u64At data (off + 32), r10 := u64At data (off + 40),
    r9 := u64At data (off + 48), r8 := u64At data (off + 56),
    rbp := u64At data (off + 64), rdi := u64At data (off + 72),
    rsi := u64At data (off + 80), rdx := u64At data (off + 88),
    rcx := u64At data (off + 96), rbx := u64At data (off + 104),
    rax := u64At data (off + 112) }

/-- One `struct.unpack_from("<QQQII", data, soff)` segment-table entry. -/
def parseSegment (data : List Nat) (off : Nat) : CoreDumpSegment :=
  { vaddr := u64At data off, size := u64At data (off + 8),
    fileOffset := u64At data (off + 16), typ := u32At data (off + 24),
    present := u32At data (off + 28) }

/-- Outcome of `parse_coredump`: `badMagic found expected` models the
`SystemExit` raised on a magic mismatch, which reports both the found and
the expected value; `structError` models an uncaught `struct.error` from
an unpack that does not fit in the buffer. -/
inductive DecodeResult where
  | ok : CoreDump → DecodeResult
  | badMagic : Nat → Nat → DecodeResult
  | structError : DecodeResult
deriving DecidableEq

/-- `parse_coredump`.  The source unpacks `<QII` at offset 0 (16 bytes),
checks the magic, then unpacks the scalar header block, the two
frame/register pairs (ending at byte 488), and finally the fixed
`MAX_SEGMENTS`-entry segment table at `segmentTableOffset` with stride
`SEGMENT_SIZE`.  Successive unpacks read at increasing offsets, so the
bound checks of the individual unpacks are collapsed into one check per
block; any failing unpack raises the same uncaught `struct.error`. -/
def parse_coredump (data : List Nat) : DecodeResult :=
  if data.length < 16 then .structError
  else
    let magic := u64At data 0
    if magic ≠ COREDUMP_MAGIC then .badMagic magic COREDUMP_MAGIC
    else if data.length < 488 then .structError
    else
      let segmentTableOffset := u64At data 464
      if data.length < segmentTableOffset + MAX_SEGMENTS * SEGMENT_SIZE then .structError
      else
        .ok {
          magic := magic, version := u32At data 8, headerSize := u32At data 12,
          timestamp := u64At data 16, pid := u64At data 24, cpu := u64At data 32,
          intNum := u64At data 40, errCode := u64At data 48,
          cr2 := u64At data 56, cr3 := u64At data 64,
          trapFrame := parseInterruptFrame data 72,
          trapRegs := parseGPRegs data 128,
          savedFrame := parseInterruptFrame data 248,
          savedRegs := parseGPRegs data 304,
          taskEntry := u64At data 424, taskPagemap := u64At data 432,
          elfHeaderAddr := u64At data 440, programHeaderAddr := u64At data 448,
          segmentCount := u64At data 456, segmentTableOffset := segmentTableOffset,
          elfSize := u64At data 472, elfOffset := u64At data 480,
          segments := (List.range MAX_SEGMENTS).map
            (fun i => parseSegment data (segmentTableOffset + i * SEGMENT_SIZE)),
          raw := data }

/-- `find_segment_for_va`: first present segment among the first
`segmentCount` entries whose `[vaddr, vaddr + size)` range contains `va`. -/
def find_segment_for_va (dump : CoreDump) (va : Nat) : Option CoreDumpSegment :=
  (dump.segments.take dump.segmentCount).find?
    (fun seg => decide (seg.present ≠ 0 ∧ seg.vaddr ≤ va ∧ va < seg.vaddr + seg.size))

/-- The stitching loop of `read_va_bytes` (`remaining` is already known to
be nonnegative here; the source's `while remaining > 0`).  Termination:
the covering segment returned by `find_segment_for_va` has at least one
byte available at `va`, so `to_read ≥ 1` and `remaining` strictly
decreases. -/
def read_va_loop (dump : CoreDump) (va remaining : Nat) : Option (List Nat) :=
  if h0 : remaining = 0 then some []
  else
    match hseg : find_segment_for_va dump va with
    | none => none
    | some seg =>
      let seg_offset := va - seg.vaddr
      let avail := seg.size - seg_offset
      let to_read := min avail remaining
      match read_va_loop dump (va + to_read) (remaining - to_read) with
      | none => none
      | some rest =>
        some ((dump.raw.drop (seg.fileOffset + seg_offset)).take to_read ++ rest)
termination_by remaining
decreasing_by
  have hp := List.find?_some hseg
  simp only [decide_eq_true_eq] at hp
  omega

/-- `read_va_bytes`: a non-positive `length` never enters the loop and
yields the empty result. -/
def read_va_bytes (dump : CoreDump) (va_start : Nat) (length : Int) :
    Option (List Nat) :=
  read_va_loop dump va_start length.toNat

/-- Modelled from the spec: the file-backed byte for a single virtual
address, read through the (first) present segment covering it.  This is
the reference against which `read_va_bytes` is compared: a fully covered
range must come back as the concatenation, in increasing address order, of
these per-address bytes. -/
def coveredByte (dump : CoreDump) (va : Nat) : Nat :=
  match find_segment_for_va dump va with
  | some seg => dump.raw.getD (seg.fileOffset + (va - seg.vaddr)) 0
  | none => 0

/-- The positional RSP/RBP markers of `annotate_qword`: six independent
`if` statements, appended in source order. -/
def va_markers (va : Nat) (dump : CoreDump) : List String :=
  (if va = dump.trapFrame.rsp then ["<-- trap RSP"] else []) ++
  (if (va : Int) = (dump.trapFrame.rsp : Int) - 8 then ["<-- trap RSP-8"] else []) ++
  (if va = dump.trapFrame.rsp + 8 then ["<-- trap RSP+8"] else []) ++
  (if va = dump.trapRegs.rbp then ["<-- trap RBP"] else []) ++
  (if va = dump.savedFrame.rsp then ["<-- saved RSP"] else []) ++
  (if va = dump.savedRegs.rbp then ["<-- saved RBP"] else [])

/-- The notes list built by `annotate_qword`: the positional markers,
followed by the value heuristics, which the source chains with
`if`/`elif` so that at most one value note is produced. -/
def annotate_qword_notes (va value : Nat) (dump : CoreDump)
    (sym_tables : List (List SymEntry)) (section_maps : List (List SecEntry)) :
    List String :=
  va_markers va dump ++
    (if value = 0 then ["[zero]"]
     else if 0 < value ∧ value < 4096 then ["[small: " ++ toString value ++ "]"]
     else if 4194304 ≤ value ∧ value ≤ 16777215 then
       match resolve_addr value sym_tables section_maps with
       | some sym => ["[code: " ++ sym ++ "]"]
       | none => ["[code addr?]"]
     else if value >>> 40 = 0x7ffe ∨ value >>> 40 = 0x7fff then ["[stack ptr?]"]
     else if value = dump.trapFrame.rip then ["[== trap RIP]"]
     else if value = dump.savedFrame.rip then ["[== saved RIP]"]
     else [])

/-- `annotate_qword` returns the notes joined with two spaces. -/
def annotate_qword (va value : Nat) (dump : CoreDump)
    (sym_tables : List (List SymEntry)) (section_maps : List (List SecEntry)) :
    String :=
  String.intercalate "  " (annotate_qword_notes va value dump sym_tables section_maps)

/-- An all-zero interrupt frame (fixture base for concrete dumps). -/
def zeroFrame : InterruptFrame :=
  { intNum := 0, errCode := 0, rip := 0, cs := 0, rflags := 0, rsp := 0, ss := 0 }

/-- An all-zero register file (fixture base for concrete dumps). -/
def zeroRegs : GPRegs :=
  { r15 := 0, r14 := 0, r13 := 0, r12 := 0, r11 := 0, r10 := 0, r9 := 0, r8 := 0,
    rbp := 0, rdi := 0, rsi := 0, rdx := 0, rcx := 0, rbx := 0, rax := 0 }

/-- A dump with only frame/register/segment data filled in (all other
header fields zero); used to instantiate theorems at concrete inputs. -/
def mkDump (tf : InterruptFrame) (tr : GPRegs) (sf : InterruptFrame)
    (sr : GPRegs) (count : Nat) (segs : List CoreDumpSegment)
    (raw : List Nat) : CoreDump :=
  { magic := COREDUMP_MAGIC, version := 0, headerSize := 0, timestamp := 0,
    pid := 0, cpu := 0, intNum := 0, errCode := 0, cr2 := 0, cr3 := 0,
    trapFrame := tf, trapRegs := tr, savedFrame := sf, savedRegs := sr,
    taskEntry := 0, taskPagemap := 0, elfHeaderAddr := 0,
    programHeaderAddr := 0, segmentCount := count, segmentTableOffset := 0,
    elfSize := 0, elfOffset := 0, segments := segs, raw := raw }

/-- Concrete dump for the boundary-rejection example: one present stack
page `[0x7000, 0x8000)` backed by file offset 0, and an adjacent absent
fault page `[0x8000, 0x9000)`.  (The raw bytes are never inspected by the
facts instantiated on this dump, which all fail before reading data.) -/
def dump0 : CoreDump :=
  mkDump zeroFrame zeroRegs zeroFrame zeroRegs 2
    [{ vaddr := 0x7000, size := 0x1000, fileOffset := 0, typ := 1, present := 1 },
     { vaddr := 0x8000, size := 0x1000, fileOffset := 0, typ := 2, present := 0 }]
    []

/-- Concrete dump for the fully-covered read: one present 16-byte segment
`[0x100, 0x110)` stored at file offset 2 of a 32-byte raw buffer. -/
def dump3 : CoreDump :=
  mkDump zeroFrame zeroRegs zeroFrame zeroRegs 1
    [{ vaddr := 0x100, size := 16, fileOffset := 2, typ := 1, present := 1 }]
    (zeros 32)

/-- Concrete dump for the annotation claims: the trap instruction pointer
is outside every earlier value-heuristic range. -/
def dump1 : CoreDump :=
  mkDump { zeroFrame with rip := 0x10000000, rsp := 0x9000 }
    { zeroRegs with rbp := 0x9100 }
    { zeroFrame with rsp := 0x9200 } { zeroRegs with rbp := 0x9300 } 0 [] []

/-- Concrete dump for the annotation counterexample: the trap instruction
pointer lies inside the `[0x400000, 0xFFFFFF]` code-range heuristic. -/
def dump2 : CoreDump :=
  mkDump { zeroFrame with rip := 0x401000, rsp := 0x9000 }
    { zeroRegs with rbp := 0x9100 }
    { zeroFrame with rsp := 0x9200 } { zeroRegs with rbp := 0x9300 } 0 [] []

/-- A demangler collaborator that is never available. -/
def noCollab : List String → Option (List String) := fun _ => none

/-- An identity pass-through demangler collaborator. -/
def idCollab : List String → Option (List String) := fun l => some l

/-- A 224-byte ELF64 image whose symbol table holds exactly one function
symbol `foo` at address 0x1000 with recorded size 0.  Layout: ELF header
(bytes 0-63, `e_shoff = 64`, `e_shentsize = 64`, `e_shnum = 2`), the
symtab section header (64-127: type 2, offset 192, size 24, link 1,
entsize 24), the strtab section header (128-191: type 3, offset 216,
size 8), one 24-byte symbol entry (192-215: name offset 1, info 2 = FUNC,
value 0x1000, size 0), and the string table (216-223: "\0foo\0\0\0\0"). -/
def c4elf : List Nat :=
  [0x7f, 0x45, 0x4c, 0x46, 2] ++ zeros 35 ++
  [64, 0, 0, 0, 0, 0, 0, 0] ++ zeros 10 ++
  [64, 0] ++ [2, 0] ++ [0, 0] ++
  ([0, 0, 0, 0] ++ [2, 0, 0, 0] ++ zeros 8 ++ zeros 8 ++
   [192, 0, 0, 0, 0, 0, 0, 0] ++ [24, 0, 0, 0, 0, 0, 0, 0] ++
   [1, 0, 0, 0] ++ [0, 0, 0, 0] ++ zeros 8 ++ [24, 0, 0, 0, 0, 0, 0, 0]) ++
  ([0, 0, 0, 0] ++ [3, 0, 0, 0] ++ zeros 8 ++ zeros 8 ++
   [216, 0, 0, 0, 0, 0, 0, 0] ++ [8, 0, 0, 0, 0, 0, 0, 0] ++
   [0, 0, 0, 0] ++ [0, 0, 0, 0] ++ zeros 8 ++ zeros 8) ++
  ([1, 0, 0, 0] ++ [2] ++ [0] ++ [1, 0] ++
   [0, 16, 0, 0, 0, 0, 0, 0] ++ zeros 8) ++
  [0, 102, 111, 111, 0, 0, 0, 0]

/-- A 128-byte ELF64 image whose symtab section header declares its
content at offset 200 with size 24 — past the end of the buffer.  The
source's symbol loop then calls `struct.unpack_from` at offset 200 of a
128-byte buffer, raising `struct.error`.  Layout: ELF header (0-63,
`e_shoff = 64`, `e_shentsize = 64`, `e_shnum = 1`) and one section header
(64-127: type 2, offset 200, size 24, link 0, entsize 24). -/
def c5elf : List Nat :=
  [0x7f, 0x45, 0x4c, 0x46, 2] ++ zeros 35 ++
  [64, 0, 0, 0, 0, 0, 0, 0] ++ zeros 10 ++
  [64, 0] ++ [1, 0] ++ [0, 0] ++
  ([0, 0, 0, 0] ++ [2, 0, 0, 0] ++ zeros 8 ++ zeros 8 ++
   [200, 0, 0, 0, 0, 0, 0, 0] ++ [24, 0, 0, 0, 0, 0, 0, 0] ++
   [0, 0, 0, 0] ++ [0, 0, 0, 0] ++ zeros 8 ++ [24, 0, 0, 0, 0, 0, 0, 0])

/-- A collaborator that always returns a single line (wrong count for any
batch of a different size). -/
def badCollab : List String → Option (List String) := fun _ => some ["x"]

/-- A buffer holding exactly the 8 little-endian magic bytes of
`COREDUMP_MAGIC` followed by nothing else. -/
def magicOnly : List Nat := [0x4F, 0x53, 0x43, 0x4F, 0x44, 0x55, 0x4D, 0x50]

/-- The section map of the spec's section-lookup example. -/
def textSecs : List SecEntry := [(0x2000, 0x500, ".text")]

/-- The symbol table of the spec's symbol-lookup example. -/
def kmainSyms : List SymEntry := [(0x1000, "kmain", 0x100)]

/-- The string-table bytes of `c4elf` (for instantiating the symbol-loop
invariant at a concrete input). -/
def c4strtab : List Nat := [0, 102, 111, 111, 0, 0, 0, 0]

/-- Present segments among the first `segmentCount` have their file-backed
range inside the raw buffer (the byte content of a dump file that actually
stores its captured segments). -/
abbrev SegFileWF (dump : CoreDump) : Prop :=
  ∀ seg ∈ dump.segments.take dump.segmentCount,
    seg.present ≠ 0 → seg.fileOffset + seg.size ≤ dump.raw.length

/-- Present segments among the first `segmentCount` are pairwise
non-overlapping in virtual-address space (the spec's stated invariant for
valid dumps). -/
abbrev SegSep (dump : CoreDump) : Prop :=
  ∀ s1 ∈ dump.segments.take dump.segmentCount,
    ∀ s2 ∈ dump.segments.take dump.segmentCount,
      s1.present ≠ 0 → s2.present ≠ 0 →
        s1.vaddr < s2.vaddr + s2.size → s2.vaddr < s1.vaddr + s1.size → s1 = s2

theorem insertSorted_perm (le : α → α → Bool) (e : α) (l : List α) :
    (insertSorted le e l).Perm (e :: l) := by
  induction l with
  | nil => simp [insertSorted]
  | cons x xs ih =>
    simp only [insertSorted]
    split
    · exact List.Perm.refl _
    · exact (ih.cons x).trans (List.Perm.swap e x xs)

theorem pySort_perm (le : α → α → Bool) (l : List α) : (pySort le l).Perm l := by
  induction l with
  | nil => simp [pySort]
  | cons x xs ih =>
    simp only [pySort, List.foldr] at *
    exact (insertSorted_perm le x _).trans (ih.cons x)

theorem demangle_batch_length (collab : List String → Option (List String))
    (names : List String) : (_demangle_batch collab names).length = names.length := by
  unfold _demangle_batch
  split
  · rfl
  · cases collab names with
    | none => rfl
    | some r =>
      simp only []
      split
      · assumption
      · rfl

theorem demangle_batch_none (collab : List String → Option (List String))
    (names : List String) (h : collab names = none) :
    _demangle_batch collab names = names := by
  unfold _demangle_batch
  split
  · rfl
  · rw [h]

theorem demangle_batch_mismatch (collab : List String → Option (List String))
    (names r : List String) (h : collab names = some r)
    (hlen : r.length ≠ names.length) : _demangle_batch collab names = names := by
  unfold _demangle_batch
  split
  · rfl
  · rw [h]
    simp only []
    exact if_neg hlen

theorem zip_rebuild_self (syms : List SymEntry) :
    ((syms.zip (syms.map (fun e => e.2.1))).map (fun p => (p.1.1, p.2, p.1.2.2))) = syms := by
  induction syms with
  | nil => rfl
  | cons x xs ih => simp [ih]

theorem zip_rebuild_pairs (syms : List SymEntry) (dm : List String)
    (h : dm.length = syms.length) :
    (((syms.zip dm).map (fun p => (p.1.1, p.2, p.1.2.2))).map (fun e => (e.1, e.2.2)))
      = syms.map (fun e => (e.1, e.2.2)) := by
  induction syms generalizing dm with
  | nil => simp
  | cons x xs ih =>
    cases dm with
    | nil => simp at h
    | cons d ds =>
      simp only [List.zip_cons_cons, List.map_cons]
      rw [ih ds (by simpa using h)]

theorem find_covers {dump : CoreDump} {va : Nat} {seg : CoreDumpSegment}
    (h : find_segment_for_va dump va = some seg) :
    seg ∈ dump.segments.take dump.segmentCount ∧ seg.present ≠ 0 ∧
      seg.vaddr ≤ va ∧ va < seg.vaddr + seg.size := by
  unfold find_segment_for_va at h
  refine ⟨List.mem_of_find?_eq_some h, ?_⟩
  have hp := List.find?_some h
  simpa using hp

theorem find_isSome {dump : CoreDump} {va : Nat} {seg : CoreDumpSegment}
    (hmem : seg ∈ dump.segments.take dump.segmentCount) (hp : seg.present ≠ 0)
    (h1 : seg.vaddr ≤ va) (h2 : va < seg.vaddr + seg.size) :
    (find_segment_for_va dump va).isSome := by
  unfold find_segment_for_va
  rw [List.find?_isSome]
  exact ⟨seg, hmem, by simp [hp, h1, h2]⟩

theorem find_unique {dump : CoreDump} {va : Nat} {seg : CoreDumpSegment}
    (hsep : SegSep dump) (hmem : seg ∈ dump.segments.take dump.segmentCount)
    (hp : seg.present ≠ 0) (h1 : seg.vaddr ≤ va) (h2 : va < seg.vaddr + seg.size) :
    find_segment_for_va dump va = some seg := by
  cases hfind : find_segment_for_va dump va with
  | none =>
    exfalso
    unfold find_segment_for_va at hfind
    rw [List.find?_eq_none] at hfind
    exact hfind seg hmem (by simp [hp, h1, h2])
  | some s =>
    have hc := find_covers hfind
    have heq : s = seg :=
      hsep s hc.1 seg hmem hc.2.1 hp (by omega) (by omega)
    rw [heq]

theorem slice_eq_map (l : List Nat) (d t : Nat) (h : d + t ≤ l.length) :
    (l.drop d).take t = (List.range t).map (fun i => l.getD (d + i) 0) := by
  apply List.ext_getElem
  · simp only [List.length_take, List.length_drop, List.length_map, List.length_range]
    omega
  · intro n h1 h2
    have hn : n < t := by simpa using h2
    have hdn : d + n < l.length := by omega
    simp only [List.getElem_take, List.getElem_drop, List.getElem_map, List.getElem_range]
    rw [List.getD_eq_getElem l 0 hdn]

theorem read_va_loop_zero (dump : CoreDump) (va : Nat) :
    read_va_loop dump va 0 = some [] := by
  unfold read_va_loop
  simp

theorem read_va_loop_find_none (dump : CoreDump) (va r : Nat) (hr : r ≠ 0)
    (h : find_segment_for_va dump va = none) : read_va_loop dump va r = none := by
  unfold read_va_loop
  rw [dif_neg hr]
  split <;> simp_all

theorem read_va_loop_find_some (dump : CoreDump) (va r : Nat) (seg : CoreDumpSegment)
    (hr : r ≠ 0) (h : find_segment_for_va dump va = some seg) :
    read_va_loop dump va r =
      Option.map
        (fun rest =>
          (dump.raw.drop (seg.fileOffset + (va - seg.vaddr))).take
            (min (seg.size - (va - seg.vaddr)) r) ++ rest)
        (read_va_loop dump (va + min (seg.size - (va - seg.vaddr)) r)
          (r - min (seg.size - (va - seg.vaddr)) r)) := by
  conv_lhs => rw [read_va_loop]
  rw [dif_neg hr]
  split
  · simp_all
  · rename_i seg' heq
    rw [h] at heq
    cases heq
    cases hrec : read_va_loop dump (va + min (seg.size - (va - seg.vaddr)) r)
        (r - min (seg.size - (va - seg.vaddr)) r) with
    | none => simp [hrec]
    | some rest => simp [hrec]

theorem read_va_loop_gap (dump : CoreDump) :
    ∀ r va i, i < r → find_segment_for_va dump (va + i) = none →
      read_va_loop dump va r = none := by
  intro r
  induction r using Nat.strong_induction_on with
  | _ r ih =>
    intro va i hi hnone
    have hr : r ≠ 0 := by omega
    cases hfind : find_segment_for_va dump va with
    | none => exact read_va_loop_find_none dump va r hr hfind
    | some seg =>
      rw [read_va_loop_find_some dump va r seg hr hfind]
      have hc := find_covers hfind
      have ht1 : 1 ≤ min (seg.size - (va - seg.vaddr)) r := by omega
      have hit : min (seg.size - (va - seg.vaddr)) r ≤ i := by
        by_contra hlt
        push_neg at hlt
        have hs : (find_segment_for_va dump (va + i)).isSome :=
          find_isSome hc.1 hc.2.1 (by omega) (by omega)
        rw [hnone] at hs
        simp at hs
      have hrec : read_va_loop dump (va + min (seg.size - (va - seg.vaddr)) r)
          (r - min (seg.size - (va - seg.vaddr)) r) = none := by
        apply ih (r - min (seg.size - (va - seg.vaddr)) r) (by omega)
          (va + min (seg.size - (va - seg.vaddr)) r)
          (i - min (seg.size - (va - seg.vaddr)) r) (by omega)
        rw [show va + min (seg.size - (va - seg.vaddr)) r +
          (i - min (seg.size - (va - seg.vaddr)) r) = va + i by omega]
        exact hnone
      rw [hrec]
      rfl

theorem read_va_loop_covered (dump : CoreDump) (hwf : SegFileWF dump)
    (hsep : SegSep dump) :
    ∀ r va, (∀ i, i < r → (find_segment_for_va dump (va + i)).isSome) →
      read_va_loop dump va r =
        some ((List.range r).map (fun i => coveredByte dump (va + i))) := by
  intro r
  induction r using Nat.strong_induction_on with
  | _ r ih =>
    intro va hcov
    by_cases hr : r = 0
    · subst hr
      simp [read_va_loop_zero]
    · obtain ⟨seg, hfind⟩ :=
        Option.isSome_iff_exists.mp (by simpa using hcov 0 (by omega))
      rw [read_va_loop_find_some dump va r seg hr hfind]
      have hc := find_covers hfind
      have ht1 : 1 ≤ min (seg.size - (va - seg.vaddr)) r := by omega
      have hseg_cov : ∀ i, i < min (seg.size - (va - seg.vaddr)) r →
          find_segment_for_va dump (va + i) = some seg := by
        intro i hi
        exact find_unique hsep hc.1 hc.2.1 (by omega) (by omega)
      have hrec := ih (r - min (seg.size - (va - seg.vaddr)) r) (by omega)
        (va + min (seg.size - (va - seg.vaddr)) r)
        (fun i hi => by
          have hx := hcov (min (seg.size - (va - seg.vaddr)) r + i) (by omega)
          rwa [show va + min (seg.size - (va - seg.vaddr)) r + i =
            va + (min (seg.size - (va - seg.vaddr)) r + i) by omega])
      rw [hrec]
      simp only [Option.map_some']
      congr 1
      have hchunk : (dump.raw.drop (seg.fileOffset + (va - seg.vaddr))).take
          (min (seg.size - (va - seg.vaddr)) r) =
          (List.range (min (seg.size - (va - seg.vaddr)) r)).map
            (fun i => coveredByte dump (va + i)) := by
        rw [slice_eq_map dump.raw (seg.fileOffset + (va - seg.vaddr))
          (min (seg.size - (va - seg.vaddr)) r)
          (by have := hwf seg hc.1 hc.2.1; omega)]
        apply List.map_congr_left
        intro i hi
        rw [List.mem_range] at hi
        unfold coveredByte
        rw [hseg_cov i hi]
        congr 1
        omega
      rw [hchunk]
      rw [show List.range r = List.range (min (seg.size - (va - seg.vaddr)) r) ++
        (List.range (r - min (seg.size - (va - seg.vaddr)) r)).map
          (fun i => min (seg.size - (va - seg.vaddr)) r + i) by
          rw [← List.range_add]; congr 1; omega]
      rw [List.map_append, List.map_map]
      congr 1
      apply List.map_congr_left
      intro i _
      simp only [Function.comp_apply]
      congr 1
      omega

theorem symLoop_inv (elf strtab : List Nat) (entsize : Nat) :
    ∀ fuel sym_off sym_end acc l,
      (∀ e ∈ acc, e.1 ≠ 0 ∧ e.2.1 ≠ "") →
      symLoop elf strtab entsize fuel sym_off sym_end acc = some l →
      ∀ e ∈ l, e.1 ≠ 0 ∧ e.2.1 ≠ "" := by
  intro fuel
  induction fuel with
  | zero =>
    intro sym_off sym_end acc l hacc h
    simp only [symLoop] at h
    cases h
    exact hacc
  | succ n ih =>
    intro sym_off sym_end acc l hacc h
    simp only [symLoop] at h
    split at h
    · split at h
      · cases h
      · split at h
        · exact ih _ _ _ _ hacc h
        · split at h
          · exact ih _ _ _ _ hacc h
          · split at h
            · exact ih _ _ _ _ hacc h
            · rename_i hvalue hname
              refine ih _ _ _ _ ?_ h
              intro e he
              rcases List.mem_append.mp he with h1 | h1
              · exact hacc e h1
              · rw [List.mem_singleton] at h1
                subst h1
                exact ⟨hvalue, hname⟩
    · cases h
      exact hacc

theorem finish_mem_addr (collab : List String → Option (List String))
    (entries : List SymEntry) (e : SymEntry)
    (he : e ∈ SymbolTable.finish collab entries) : ∃ a ∈ entries, e.1 = a.1 := by
  unfold SymbolTable.finish at he
  have hp := (pySort_perm symLE _).mem_iff.mp he
  rw [List.mem_map] at hp
  obtain ⟨p, hpz, hpe⟩ := hp
  have hm := List.of_mem_zip hpz
  exact ⟨p.1, hm.1, by rw [← hpe]⟩

/-- C1: the claim states that for a table containing an entry at address
`A`, `lookup(A)` returns that entry's bare name.  The code disagrees: the
probe tuple `(addr,)` sorts strictly below every stored `(addr, name,
size)` triple, so `bisect_right` places the insertion point before an
entry at exactly `addr`, and stepping back one lands before it — the
selected entry is the greatest one with address strictly below `addr`,
and a query at the smallest (here the only) entry address finds nothing.
This theorem evaluates the embedded `SymbolTable.lookup` at the claim's
own example and shows the code returns no match where the claim (and the
function's docstring, and its unreachable `offset == 0` branch) promise
the bare name `"kmain"`. -/
theorem c1_lookup_misses_exact_address :
    SymbolTable.lookup kmainSyms 0x1000 = none := by decide

/-- C3 counterexample: the claim says `lookup(0x1200)` on
`("kmain", addr=0x1000, size=0x100)` returns no match, but the offset
`0x200` exceeds the recorded size while still lying within the fixed
`0x1000` small-offset tolerance, so the source's fall-through branch
reports `"kmain+0x200"`. -/
theorem c3_lookup_beyond_size_reported :
    SymbolTable.lookup kmainSyms 0x1200 = some "kmain+0x200" := by decide

/-- C3 amended: for the table containing exactly
`("kmain", addr=0x1000, size=0x100)`, `lookup(0x1050)` returns
`"kmain+0x50"`; `lookup(0x1200)` returns `"kmain+0x200"` (the offset
exceeds the recorded size but is within the `0x1000` tolerance, so it is
still reported); and an offset beyond the tolerance is rejected:
`lookup(0x2001)` returns no match. -/
theorem c3_lookup_size_tolerance :
    SymbolTable.lookup kmainSyms 0x1050 = some "kmain+0x50" ∧
    SymbolTable.lookup kmainSyms 0x1200 = some "kmain+0x200" ∧
    SymbolTable.lookup kmainSyms 0x2001 = none :=
  ⟨by decide, by decide, by decide⟩

set_option maxRecDepth 100000 in
/-- C5: the claim says `parseSymbols` never raises on any input buffer.
The embedded `_parse_elf_symtab` evaluated on the 128-byte buffer
`c5elf` — a well-formed ELF64 header whose symtab section header declares
its contents at offset 200, size 24, beyond the end of the buffer —
reaches the symbol-entry loop and performs the source's unguarded
`struct.unpack_from("<IBBHQQ", elf, 200)`, which raises `struct.error`:
the exception escapes instead of the entry or table being skipped. -/
theorem c5_symtab_reader_raises :
    _parse_elf_symtab noCollab c5elf = PRes.exn := by decide

/-- C9: `SectionMap.lookup` is strictly bounded by the section size — a
successful match means the selected entry's offset is strictly below its
size (so in particular a size-0 section can never match: there is no
special case for it); and on the map containing exactly
`(".text", addr=0x2000, size=0x500)`, `lookup(0x24FF)` returns
`".text+0x4ff"` while `lookup(0x2500)` returns no match. -/
theorem c9_section_lookup_strict_bound :
    (∀ (secs : List SecEntry) (addr : Nat) (r : String),
      SectionMap.lookup secs addr = some r →
        ((addr : Int) -
            ((secs.getD (bisect_right_secs secs addr - 1) (0, 0, "")).1 : Int) <
          ((secs.getD (bisect_right_secs secs addr - 1) (0, 0, "")).2.1 : Int)) ∧
        (secs.getD (bisect_right_secs secs addr - 1) (0, 0, "")).2.1 ≠ 0) ∧
    SectionMap.lookup textSecs 0x24FF = some ".text+0x4ff" ∧
    SectionMap.lookup textSecs 0x2500 = none := by
  refine ⟨?_, by decide, by decide⟩
  intro secs addr r h
  unfold SectionMap.lookup at h
  split at h
  · cases h
  · simp only [] at h
    split at h
    · cases h
    · rename_i hidx
      have htn : ((bisect_right_secs secs addr : Int) - 1).toNat =
          bisect_right_secs secs addr - 1 := by omega
      rw [htn] at h
      split at h
      · cases h
      · rename_i hbound
        push_neg at hbound
        exact ⟨hbound.2, by omega⟩

/-- C9 witness: the general bound instantiated at the `.text` example. -/
theorem c9_section_lookup_strict_bound_witness :
    ((0x24FF : Int) -
        ((textSecs.getD (bisect_right_secs textSecs 0x24FF - 1) (0, 0, "")).1 : Int) <
      ((textSecs.getD (bisect_right_secs textSecs 0x24FF - 1) (0, 0, "")).2.1 : Int)) ∧
    (textSecs.getD (bisect_right_secs textSecs 0x24FF - 1) (0, 0, "")).2.1 ≠ 0 :=
  c9_section_lookup_strict_bound.1 textSecs 0x24FF ".text+0x4ff" (by decide)

/-- C10: `read_va_bytes` with a non-positive requested length returns the
empty result without entering the loop; and whenever the loop runs
(`remaining > 0`) and `find_segment_for_va` yields a covering segment,
the step size `min(avail, remaining)` is at least one byte, so the
remaining length strictly decreases — the stitching loop terminates. -/
theorem c10_read_va_bytes_terminates (dump : CoreDump) (va : Nat) :
    (∀ length : Int, length ≤ 0 → read_va_bytes dump va length = some []) ∧
    (∀ r seg, find_segment_for_va dump va = some seg → 0 < r →
      0 < min (seg.size - (va - seg.vaddr)) r ∧
        r - min (seg.size - (va - seg.vaddr)) r < r) := by
  constructor
  · intro length hlen
    unfold read_va_bytes
    rw [show length.toNat = 0 by omega]
    exact read_va_loop_zero dump va
  · intro r seg hfind hr
    have hc := find_covers hfind
    omega

/-- C10 witness: a negative length on `dump0` returns the empty result,
and the loop step at `va = 0x7000` inside the present `[0x7000, 0x8000)`
segment reads a positive amount and strictly shrinks `remaining = 5`. -/
theorem c10_read_va_bytes_terminates_witness :
    read_va_bytes dump0 0x7000 (-3) = some [] ∧
    (0 < min ((0x1000 : Nat) - (0x7000 - 0x7000)) 5 ∧
      5 - min ((0x1000 : Nat) - (0x7000 - 0x7000)) 5 < 5) :=
  ⟨(c10_read_va_bytes_terminates dump0 0x7000).1 (-3) (by decide),
   (c10_read_va_bytes_terminates dump0 0x7000).2 5
     { vaddr := 0x7000, size := 0x1000, fileOffset := 0, typ := 1, present := 1 }
     (by decide) (by decide)⟩

/-- C2: for a dump whose stored present segments are file-backed
(`SegFileWF`) and non-overlapping (`SegSep`, the spec's invariant for
valid dumps, needed so that "the covering segment" of an address is
well-defined), a range each of whose addresses is covered by a present
segment is read in full: `read_va_bytes` returns exactly `len` bytes,
the concatenation in increasing address order of the per-address
file-backed bytes `coveredByte`; and conversely, if any address of the
range lacks a covering present segment the whole read returns no result —
never a partial one. -/
theorem c2_read_va_bytes_covers (dump : CoreDump) (start len : Nat) :
    ((∀ i, i < len → (find_segment_for_va dump (start + i)).isSome) →
      SegFileWF dump → SegSep dump →
      read_va_bytes dump start (len : Int) =
        some ((List.range len).map (fun i => coveredByte dump (start + i)))) ∧
    ((∃ i, i < len ∧ find_segment_for_va dump (start + i) = none) →
      read_va_bytes dump start (len : Int) = none) := by
  constructor
  · intro hcov hwf hsep
    unfold read_va_bytes
    rw [Int.toNat_natCast]
    exact read_va_loop_covered dump hwf hsep len start hcov
  · rintro ⟨i, hi, hnone⟩
    unfold read_va_bytes
    rw [Int.toNat_natCast]
    exact read_va_loop_gap dump len start i hi hnone

/-- C2 witness: on `dump3` a fully covered 4-byte read at `0x100` returns
exactly the four per-address file-backed bytes, and on `dump0` (present
`[0x7000, 0x8000)` page, absent adjacent page) the 16-byte read at
`0x7FF8` crossing into the absent segment — the claim's own example —
returns no result. -/
theorem c2_read_va_bytes_covers_witness :
    read_va_bytes dump3 0x100 ((4 : Nat) : Int) =
      some ((List.range 4).map (fun i => coveredByte dump3 (0x100 + i))) ∧
    read_va_bytes dump0 0x7FF8 ((16 : Nat) : Int) = none :=
  ⟨(c2_read_va_bytes_covers dump3 0x100 4).1 (by decide) (by decide) (by decide),
   (c2_read_va_bytes_covers dump0 0x7FF8 16).2 ⟨8, by decide, by decide⟩⟩

set_option maxRecDepth 100000 in
/-- C4 counterexample: the claim says zero-length symbols are dropped, so
no entry of a constructed table has size 0.  But `_parse_elf_symtab`
filters only on type, `st_value != 0`, and a nonempty name — never on
`st_size` — and `SymbolTable.lookup` even has a dedicated `size == 0`
path.  Parsing the concrete ELF image `c4elf`, whose single function
symbol `foo` has `st_value = 0x1000` and `st_size = 0`, yields a table
whose only entry has size 0. -/
theorem c4_size_zero_symbol_kept :
    _parse_elf_symtab noCollab c4elf = PRes.ok (some [(0x1000, "foo", 0)]) := by
  decide

/-- C4 amended: zero-value and empty-name symbol-table entries are
dropped before insertion — every entry of a table produced by
`_parse_elf_symtab` has a nonzero address, and every entry collected by
the symbol-entry loop additionally has a nonempty name — but entries
with recorded size 0 are retained. -/
theorem c4_collected_symbols_nonzero :
    (∀ (collab : List String → Option (List String)) (elf : List Nat)
      (t : List SymEntry), _parse_elf_symtab collab elf = PRes.ok (some t) →
        ∀ e ∈ t, e.1 ≠ 0) ∧
    (∀ (elf strtab : List Nat) (entsize fuel sym_off sym_end : Nat)
      (l : List SymEntry),
      symLoop elf strtab entsize fuel sym_off sym_end [] = some l →
        ∀ e ∈ l, e.1 ≠ 0 ∧ e.2.1 ≠ "") := by
  constructor
  · intro collab elf t h e he
    unfold _parse_elf_symtab at h
    repeat' (first | split at h | simp only [] at h)
    all_goals (try (exfalso; simp at h; done))
    all_goals (
      rename_i entries hloop hcond;
      simp only [PRes.ok.injEq, Option.some.injEq] at h;
      subst h;
      obtain ⟨a, ha, hea⟩ := finish_mem_addr _ _ _ he;
      have hinv := symLoop_inv _ _ _ _ _ _ _ _ (by intro x hx; cases hx) hloop a ha;
      rw [hea];
      exact hinv.1)
  · intro elf strtab entsize fuel sym_off sym_end l h
    exact symLoop_inv elf strtab entsize fuel sym_off sym_end [] l
      (by intro x hx; cases hx) h

set_option maxRecDepth 100000 in
/-- C4 witness: the general nonzero-address (and, for the raw collection
loop, nonempty-name) facts instantiated on `c4elf`. -/
theorem c4_collected_symbols_nonzero_witness :
    ((0x1000 : Nat), "foo", (0 : Nat)).1 ≠ 0 ∧
    (((0x1000 : Nat), "foo", (0 : Nat)).1 ≠ 0 ∧
      ((0x1000 : Nat), "foo", (0 : Nat)).2.1 ≠ "") :=
  ⟨c4_collected_symbols_nonzero.1 noCollab c4elf [(0x1000, "foo", 0)] (by decide)
      (0x1000, "foo", 0) (by decide),
   c4_collected_symbols_nonzero.2 c4elf c4strtab 24 217 192 216
      [(0x1000, "foo", 0)] (by decide) (0x1000, "foo", 0) (by decide)⟩

/-- C6 counterexample: the claim says the note for a value equal to a
recorded instruction pointer fires even when another value heuristic
applies.  In `dump2` the trap RIP is `0x401000`, inside the
`[0x400000, 0xFFFFFF]` code-range heuristic; the source's `elif` chain
emits only the code-range note, and the `[== trap RIP]` note is absent. -/
theorem c6_value_notes_exclusive :
    annotate_qword_notes 0 0x401000 dump2 [] [] = ["[code addr?]"] ∧
    "[== trap RIP]" ∉ annotate_qword_notes 0 0x401000 dump2 [] [] :=
  ⟨by decide, by decide⟩

/-- C6 amended: the positional markers are independent, but the value
heuristics are mutually exclusive — first match wins in the order zero,
small, code-range, stack-pattern, trap RIP, saved RIP.  In particular the
`[== trap RIP]` note is emitted exactly when the value equals the trap
instruction pointer and no earlier value heuristic applies, in which case
the notes are the positional markers followed by that single value note. -/
theorem c6_trap_rip_note_when_no_earlier_heuristic
    (va value : Nat) (dump : CoreDump) (sts : List (List SymEntry))
    (sms : List (List SecEntry)) (h1 : value = dump.trapFrame.rip)
    (h2 : value ≠ 0) (h3 : ¬ value < 4096)
    (h4 : ¬ (4194304 ≤ value ∧ value ≤ 16777215))
    (h5 : value >>> 40 ≠ 0x7ffe) (h6 : value >>> 40 ≠ 0x7fff) :
    annotate_qword_notes va value dump sts sms =
      va_markers va dump ++ ["[== trap RIP]"] := by
  unfold annotate_qword_notes
  rw [if_neg h2, if_neg (by omega), if_neg h4, if_neg (not_or.mpr ⟨h5, h6⟩),
    if_pos h1]

/-- C6 witness: on `dump1` (trap RIP `0x10000000`, outside every earlier
heuristic) the annotation of that value is exactly the trap-RIP note. -/
theorem c6_trap_rip_note_witness :
    annotate_qword_notes 0 0x10000000 dump1 [] [] =
      va_markers 0 dump1 ++ ["[== trap RIP]"] :=
  c6_trap_rip_note_when_no_earlier_heuristic 0 0x10000000 dump1 [] []
    (by decide) (by decide) (by decide) (by decide) (by decide) (by decide)

/-- C7 counterexample: the claim quantifies over every input buffer whose
leading 8-byte little-endian magic differs from the expected constant.
A 12-byte all-zero buffer has such a (mismatching) leading magic field,
but `struct.unpack_from("<QII", data, 0)` needs 16 bytes and raises
`struct.error` before the magic is ever compared — the decode fails
without a `BadMagic` error and without reporting the two values. -/
theorem c7_short_buffer_struct_error :
    u64At (zeros 12) 0 ≠ COREDUMP_MAGIC ∧
    parse_coredump (zeros 12) = DecodeResult.structError :=
  ⟨by decide, by decide⟩

/-- C7 amended: for every buffer long enough for the leading
`<QII` unpack (16 bytes), a mismatched magic makes `parse_coredump` fail
with `BadMagic` carrying both the found and the expected value and
nothing else; and with a correct magic the decode never produces a
`BadMagic` error — it proceeds. -/
theorem c7_bad_magic_reported (data : List Nat) :
    (16 ≤ data.length → u64At data 0 ≠ COREDUMP_MAGIC →
      parse_coredump data = DecodeResult.badMagic (u64At data 0) COREDUMP_MAGIC) ∧
    (u64At data 0 = COREDUMP_MAGIC →
      ∀ f ex, parse_coredump data ≠ DecodeResult.badMagic f ex) := by
  constructor
  · intro hlen hm
    unfold parse_coredump
    rw [if_neg (by omega)]
    simp only []
    rw [if_pos hm]
  · intro hm f ex
    unfold parse_coredump
    split
    · simp
    · simp only []
      rw [if_neg (by simp [hm])]
      split
      · simp
      · split
        · simp
        · simp

/-- C7 witness: a 16-byte zero buffer fails with `BadMagic 0 expected`,
and a buffer starting with the correct magic bytes is never a
`BadMagic` failure. -/
theorem c7_bad_magic_reported_witness :
    parse_coredump (zeros 16) = DecodeResult.badMagic 0 COREDUMP_MAGIC ∧
    parse_coredump magicOnly ≠ DecodeResult.badMagic 0 0 :=
  ⟨(c7_bad_magic_reported (zeros 16)).1 (by decide) (by decide),
   (c7_bad_magic_reported magicOnly).2 (by decide) 0 0⟩

/-- C8: `SymbolTable.finish` is robust against the demangler
collaborator.  If the collaborator is unavailable (returns nothing) or
returns a line count different from the number of submitted names, every
entry keeps its original name — the result is just the sorted original
table; for every collaborator whatsoever the number of entries is
preserved and the multiset of `(address, size)` pairings is preserved;
and a failing collaborator produces exactly the same table as an
identity pass-through collaborator, so the resolver's output count and
order are unaffected by the failure. -/
theorem c8_finish_robust (collab : List String → Option (List String))
    (syms : List SymEntry) :
    (collab (syms.map (fun e => e.2.1)) = none →
      SymbolTable.finish collab syms = pySort symLE syms) ∧
    (∀ r, collab (syms.map (fun e => e.2.1)) = some r →
      r.length ≠ syms.length →
      SymbolTable.finish collab syms = pySort symLE syms) ∧
    (SymbolTable.finish collab syms).length = syms.length ∧
    ((SymbolTable.finish collab syms).map (fun e => (e.1, e.2.2))).Perm
      (syms.map (fun e => (e.1, e.2.2))) ∧
    SymbolTable.finish noCollab syms = SymbolTable.finish idCollab syms := by
  refine ⟨?_, ?_, ?_, ?_, ?_⟩
  · intro hc
    unfold SymbolTable.finish
    rw [demangle_batch_none collab _ hc]
    simp only []
    rw [zip_rebuild_self]
  · intro r hc hlen
    unfold SymbolTable.finish
    rw [demangle_batch_mismatch collab _ r hc (by simpa using hlen)]
    simp only []
    rw [zip_rebuild_self]
  · have hd := demangle_batch_length collab (syms.map (fun e => e.2.1))
    unfold SymbolTable.finish
    rw [(pySort_perm _ _).length_eq, List.length_map, List.length_zip]
    simp [hd]
  · have hperm := (pySort_perm symLE
      ((syms.zip (_demangle_batch collab (syms.map fun e => e.2.1))).map
        (fun p => (p.1.1, p.2, p.1.2.2)))).map (fun e => (e.1, e.2.2))
    rw [zip_rebuild_pairs syms _ (by simp [demangle_batch_length])] at hperm
    exact hperm
  · have h1 : SymbolTable.finish noCollab syms = pySort symLE syms := by
      unfold SymbolTable.finish
      rw [demangle_batch_none noCollab _ rfl]
      simp only []
      rw [zip_rebuild_self]
    have h2 : SymbolTable.finish idCollab syms = pySort symLE syms := by
      unfold SymbolTable.finish
      have hid : _demangle_batch idCollab (syms.map (fun e => e.2.1)) =
          syms.map (fun e => e.2.1) := by
        unfold _demangle_batch idCollab
        split
        · rfl
        · simp
      rw [hid]
      simp only []
      rw [zip_rebuild_self]
    rw [h1, h2]

/-- C8 witness: the robustness facts instantiated on a concrete two-entry
table with an unavailable collaborator and with a collaborator returning
the wrong line count. -/
theorem c8_finish_robust_witness :
    SymbolTable.finish noCollab [(3, "b", 1), (1, "a", 2)] =
      pySort symLE [(3, "b", 1), (1, "a", 2)] ∧
    SymbolTable.finish badCollab [(3, "b", 1), (1, "a", 2)] =
      pySort symLE [(3, "b", 1), (1, "a", 2)] ∧
    (SymbolTable.finish badCollab [(3, "b", 1), (1, "a", 2)]).length = 2 ∧
    ((SymbolTable.finish noCollab [(3, "b", 1), (1, "a", 2)]).map
        (fun e => (e.1, e.2.2))).Perm
      ([((3 : Nat), "b", (1 : Nat)), (1, "a", 2)].map (fun e => (e.1, e.2.2))) :=
  ⟨(c8_finish_robust noCollab [(3, "b", 1), (1, "a", 2)]).1 rfl,
   (c8_finish_robust badCollab [(3, "b", 1), (1, "a", 2)]).2.1 ["x"] rfl (by decide),
   (c8_finish_robust badCollab [(3, "b", 1), (1, "a", 2)]).2.2.1,
   (c8_finish_robust noCollab [(3, "b", 1), (1, "a", 2)]).2.2.2.1⟩
